import Mathlib

namespace RemoveLetterbox

/-- Errors in the model of `anyhow::Error`: a raw collaborator error, an error
wrapped by `.with_context(...)` (the context string first), or an
`anyhow::bail!` error raised by the core itself. -/
inductive Err where
  | imxErr (msg : String)
  | contextErr (ctx : String) (inner : Err)
  | bail (msg : String)

/-- Whether an error carries a `with_context` wrapping at its surface. -/
def Err.isContextual : Err → Bool
  | .contextErr _ _ => true
  | _ => false

/-- Observable events of a run: log lines, `process_file` invocations by the
driver (with the threshold passed), and calls into the `imx` collaborator. -/
inductive Event where
  | enterDir (path : String)
  | dispatch (path : String) (threshold : Nat)
  | infoJxl (path : String)
  | warnSkip (path : String)
  | infoImage (path : String)
  | callProcessJxl (path : String)
  | callRemove (path : String) (threshold : Nat)

/-- The external `imx` collaborator (out of scope per the spec): classification
predicates and the two processing operations, modelled as an oracle. -/
structure Imx where
  is_jxl_file : String → Bool
  is_image_file : String → Bool
  remove_letterbox_with_threshold : String → Nat → Except Err Unit
  process_jxl_file : String → (String → Except Err Unit) → Except Err Unit

/-- `create_processor` from the source: a closure that owns the threshold value
and accepts only a path. -/
def create_processor (imx : Imx) (threshold : Nat) : String → Except Err Unit :=
  fun path => imx.remove_letterbox_with_threshold path threshold

/-- Model of `.with_context(|| format!("Failed to process image file: {}", path))`:
wraps only the error case. -/
def withPathContext (path : String) : Except Err Unit → Except Err Unit
  | .ok u => .ok u
  | .error e => .error (.contextErr ("Failed to process image file: " ++ path) e)

/-- `process_file` from the source: JXL files go to the collaborator's
structured pipeline with the bound closure; other image files go to direct
removal with context wrapping; anything else is skipped with a warning.
Returns the emitted events and the outcome. -/
def process_file (imx : Imx) (path : String) (threshold : Nat) :
    List Event × Except Err Unit :=
  if imx.is_jxl_file path then
    ([Event.infoJxl path, Event.callProcessJxl path],
      imx.process_jxl_file path (create_processor imx threshold))
  else if !imx.is_image_file path then
    ([Event.warnSkip path], Except.ok ())
  else
    ([Event.infoImage path, Event.callRemove path threshold],
      withPathContext path (imx.remove_letterbox_with_threshold path threshold))

/-- A file-system tree as one read of the directory structure: each node is a
regular file or a directory with its entries. -/
inductive FsTree where
  | file (path : String)
  | dir (path : String) (entries : List FsTree)

/-- Model of the `?` operator sequencing two steps of the traversal loop: if
the first step failed, its error is returned and the rest is not run (its
events are discarded); otherwise the events concatenate. -/
def andThen : List Event × Except Err Unit → List Event × Except Err Unit →
    List Event × Except Err Unit
  | (ev1, Except.ok _), (ev2, r2) => (ev1 ++ ev2, r2)
  | (ev1, Except.error e), _ => (ev1, Except.error e)

/-- The loop body of `process_directory_inner` from the source: for each entry,
a regular file is dispatched to `process_file` (fail-fast via `?`), a directory
is recursed into only when `recursive` is set, and is silently skipped
otherwise. -/
def process_entries (imx : Imx) (recursive : Bool) (threshold : Nat) :
    List FsTree → List Event × Except Err Unit
  | [] => ([], Except.ok ())
  | FsTree.file p :: rest =>
      andThen
        (Event.dispatch p threshold :: (process_file imx p threshold).1,
          (process_file imx p threshold).2)
        (process_entries imx recursive threshold rest)
  | FsTree.dir p es :: rest =>
      if recursive then
        andThen
          (Event.enterDir p :: (process_entries imx recursive threshold es).1,
            (process_entries imx recursive threshold es).2)
          (process_entries imx recursive threshold rest)
      else process_entries imx recursive threshold rest

/-- `process_directory` from the source: logs the directory and runs the entry
loop over its entries. -/
def process_directory (imx : Imx) (recursive : Bool) (threshold : Nat)
    (dir : String) (entries : List FsTree) : List Event × Except Err Unit :=
  (Event.enterDir dir :: (process_entries imx recursive threshold entries).1,
    (process_entries imx recursive threshold entries).2)

/-- The status of the input path at the start of the run, mirroring the
`exists()` / `is_file()` / `is_dir()` checks in `main`: missing, a regular
file, a directory (with its tree of entries), or something else (a special
file that exists but is neither a regular file nor a directory). -/
inductive PathStat where
  | missing
  | regularFile
  | directory (entries : List FsTree)
  | special

/-- `main` from the source: bail with "Input path does not exist" when the
path is missing, dispatch a regular file directly, drive the directory
traversal for a directory, and fall through (returning `Ok(())`) otherwise. -/
def main (imx : Imx) (input : String) (stat : PathStat) (recursive : Bool)
    (threshold : Nat) : List Event × Except Err Unit :=
  match stat with
  | .missing => ([], Except.error (Err.bail ("Input path does not exist: " ++ input)))
  | .regularFile =>
      (Event.dispatch input threshold :: (process_file imx input threshold).1,
        (process_file imx input threshold).2)
  | .directory entries => process_directory imx recursive threshold input entries
  | .special => ([], Except.ok ())

/-- Construction of the `threshold` field of `Args`: clap parses the
`--threshold` argument into a `u8`, so an integer value is accepted exactly
when it fits in `[0, 255]`; out-of-range values are an argument-parsing
(configuration-construction) error, modelled as `none`. -/
def mkThreshold (t : Int) : Option Nat :=
  if 0 ≤ t ∧ t ≤ 255 then some t.toNat else none

/-- Boolean success test on an outcome. -/
def isOkB : Except Err Unit → Bool
  | .ok _ => true
  | .error _ => false

/-- Whether `process_file` on this path returns a `Failed` outcome. -/
def fileFails (imx : Imx) (threshold : Nat) (p : String) : Bool :=
  !isOkB (process_file imx p threshold).2

/-- The paths of the `process_file` invocations recorded in a trace, in
order. -/
def dispatchedPaths (tr : List Event) : List String :=
  tr.filterMap fun e =>
    match e with
    | Event.dispatch p _ => some p
    | _ => none

/-- The regular files a traversal of these entries visits, in traversal
order: files of a subdirectory are included only when `recursive` is set. -/
def allFiles (recursive : Bool) : List FsTree → List String
  | [] => []
  | FsTree.file p :: rest => p :: allFiles recursive rest
  | FsTree.dir _ es :: rest =>
      (if recursive then allFiles recursive es else []) ++ allFiles recursive rest

/-- The files actually dispatched under the fail-fast policy: every file up to
and including the first failing one. -/
def expectedDispatch (imx : Imx) (threshold : Nat) : List String → List String
  | [] => []
  | p :: ps =>
      if fileFails imx threshold p then [p]
      else p :: expectedDispatch imx threshold ps

/-- The threshold an event carries, when it carries one: the configuration
passed at a `process_file` dispatch or at a direct removal call. -/
def eventThreshold : Event → Option Nat
  | Event.dispatch _ t => some t
  | Event.callRemove _ t => some t
  | _ => none

/-- A static bound on the number of events a traversal of these entries can
emit: at most three per regular file and one per directory. -/
def eventBound : List FsTree → Nat
  | [] => 0
  | FsTree.file _ :: rest => 3 + eventBound rest
  | FsTree.dir _ es :: rest => 1 + eventBound es + eventBound rest

/-- A concrete collaborator for witnesses: three known raster images, one of
which ("bad.png") fails inside the collaborator, and one known JXL path. -/
def imxDemo : Imx :=
  { is_jxl_file := fun p => p == "a.jxl"
    is_image_file := fun p => p == "x.png" || p == "bad.png" || p == "c.png"
    remove_letterbox_with_threshold := fun p _ =>
      if p == "bad.png" then Except.error (Err.imxErr "boom") else Except.ok ()
    process_jxl_file := fun _ _ => Except.ok () }

/-- A concrete collaborator whose structured-format pipeline always fails with
a raw, unwrapped error. -/
def imxJxlFail : Imx :=
  { is_jxl_file := fun _ => true
    is_image_file := fun _ => true
    remove_letterbox_with_threshold := fun _ _ => Except.ok ()
    process_jxl_file := fun _ _ => Except.error (Err.imxErr "decode failed") }

/-- C3: a non-existent input path makes the run fail with the
input-not-found error before anything else happens: the event trace is empty,
so no classification, traversal or dispatch is performed and no file is
touched. -/
theorem c3_input_not_found (imx : Imx) (input : String) (recursive : Bool)
    (threshold : Nat) :
    main imx input PathStat.missing recursive threshold
      = ([], Except.error (Err.bail ("Input path does not exist: " ++ input))) := rfl

/-- C10: an input path that exists but is neither a regular file nor a
directory falls through both branches of main: the run returns success with an
empty trace — no dispatch, no error, no warning. -/
theorem c10_special_input (imx : Imx) (input : String) (recursive : Bool)
    (threshold : Nat) :
    main imx input PathStat.special recursive threshold = ([], Except.ok ()) := rfl

/-- C8: constructing the threshold of the run configuration from an integer
succeeds exactly when the value lies in the u8 range 0..255; an out-of-range
value is rejected at configuration construction (argument parsing), and an
in-range value is passed through unchanged. -/
theorem c8_threshold_range (t : Int) :
    ((mkThreshold t).isSome = true ↔ (0 ≤ t ∧ t ≤ 255))
    ∧ (0 ≤ t ∧ t ≤ 255 → mkThreshold t = some t.toNat) := by
  constructor
  · unfold mkThreshold
    split <;> simp_all
  · intro h
    unfold mkThreshold
    simp [h]

/-- C8 witness: the boundary threshold 255 is accepted and the out-of-range
value 256 is rejected at construction. -/
theorem c8_threshold_range_witness :
    mkThreshold 255 = some 255 ∧ (mkThreshold 256).isSome = false :=
  ⟨(c8_threshold_range 255).2 (by decide), by decide⟩

/-- C4: a path that is neither the structured format nor a supported image is
dispatched to a warning and a successful skip: the whole observable behaviour
is the single warning event and an Ok outcome — no error, and no collaborator
call appears in the trace, so the file is never opened or modified. -/
theorem c4_non_image_skipped (imx : Imx) (p : String) (threshold : Nat)
    (hjxl : imx.is_jxl_file p = false) (himg : imx.is_image_file p = false) :
    process_file imx p threshold = ([Event.warnSkip p], Except.ok ()) := by
  simp [process_file, hjxl, himg]

/-- C4 witness: a text file under the demo collaborator is skipped with a
warning. -/
theorem c4_non_image_skipped_witness :
    process_file imxDemo "notes.txt" 10 = ([Event.warnSkip "notes.txt"], Except.ok ()) :=
  c4_non_image_skipped imxDemo "notes.txt" 10 (by simp [imxDemo]) (by simp [imxDemo])

/-- C5: with recursion disabled, a directory entry is silently skipped by the
traversal loop: processing the list with the subdirectory in front is exactly
processing the list without it — no dispatch of the files inside it, no
event (hence no warning) and no error for it. -/
theorem c5_nonrecursive_skips_dirs (imx : Imx) (threshold : Nat) (p : String)
    (es : List FsTree) (rest : List FsTree) :
    process_entries imx false threshold (FsTree.dir p es :: rest)
      = process_entries imx false threshold rest := by
  simp [process_entries]

/-- C6: a structured-format path is dispatched to the collaborator's
structured pipeline with the path and the bound removal closure, and that
closure, applied to any path q, is exactly the direct removal operation on q
with the configured threshold — the threshold is captured once by the
closure, not re-supplied per call. -/
theorem c6_structured_dispatch (imx : Imx) (p : String) (threshold : Nat)
    (hjxl : imx.is_jxl_file p = true) :
    process_file imx p threshold
        = ([Event.infoJxl p, Event.callProcessJxl p],
            imx.process_jxl_file p (create_processor imx threshold))
    ∧ ∀ q, create_processor imx threshold q
        = imx.remove_letterbox_with_threshold q threshold := by
  refine ⟨?_, fun q => rfl⟩
  simp [process_file, hjxl]

/-- C6 witness: the structured dispatch at a concrete JXL path. -/
theorem c6_structured_dispatch_witness :
    process_file imxJxlFail "clip.jxl" 10
        = ([Event.infoJxl "clip.jxl", Event.callProcessJxl "clip.jxl"],
            imxJxlFail.process_jxl_file "clip.jxl" (create_processor imxJxlFail 10))
    ∧ ∀ q, create_processor imxJxlFail 10 q
        = imxJxlFail.remove_letterbox_with_threshold q 10 :=
  c6_structured_dispatch imxJxlFail "clip.jxl" 10 (by simp [imxJxlFail])

/-- C2 counterexample: for a structured-format (JXL) path whose collaborator
call fails, the error surfaced by dispatch is the collaborator's raw error,
with no contextual wrapping at all — refuting the claim that errors of every
classification are wrapped with context identifying the failing path. -/
theorem c2_counterexample :
    (process_file imxJxlFail "clip.jxl" 10).2 = Except.error (Err.imxErr "decode failed")
    ∧ Err.isContextual (Err.imxErr "decode failed") = false := by
  constructor
  · simp [process_file, imxJxlFail]
  · rfl

/-- C2 amended: only the StandardImage branch wraps the collaborator error
with the context string naming the failing path; the StructuredFormat branch
propagates the collaborator's error unchanged. -/
theorem c2_amended_context_wrapping (imx : Imx) (p : String) (threshold : Nat) :
    (imx.is_jxl_file p = false → imx.is_image_file p = true →
      ∀ e, imx.remove_letterbox_with_threshold p threshold = Except.error e →
        (process_file imx p threshold).2
          = Except.error (Err.contextErr ("Failed to process image file: " ++ p) e))
    ∧ (imx.is_jxl_file p = true →
        (process_file imx p threshold).2
          = imx.process_jxl_file p (create_processor imx threshold)) := by
  constructor
  · intro hjxl himg e herr
    simp [process_file, hjxl, himg, withPathContext, herr]
  · intro hjxl
    simp [process_file, hjxl]

/-- C2 amended witness: the failing raster image is surfaced with the
path-naming context, and the failing JXL path is surfaced unwrapped. -/
theorem c2_amended_context_wrapping_witness :
    (process_file imxDemo "bad.png" 10).2
        = Except.error (Err.contextErr ("Failed to process image file: " ++ "bad.png")
            (Err.imxErr "boom"))
    ∧ (process_file imxJxlFail "clip.jxl" 10).2
        = imxJxlFail.process_jxl_file "clip.jxl" (create_processor imxJxlFail 10) :=
  ⟨(c2_amended_context_wrapping imxDemo "bad.png" 10).1 (by simp [imxDemo])
      (by simp [imxDemo]) (Err.imxErr "boom") (by simp [imxDemo]),
    (c2_amended_context_wrapping imxJxlFail "clip.jxl" 10).2 (by simp [imxJxlFail])⟩

end RemoveLetterbox
namespace RemoveLetterbox

theorem process_file_events_le (imx : Imx) (p : String) (threshold : Nat) :
    (process_file imx p threshold).1.length ≤ 2 := by
  unfold process_file
  split
  · simp
  · split <;> simp

theorem process_entries_events_le (imx : Imx) (threshold : Nat) :
    (recursive : Bool) → (l : List FsTree) →
      (process_entries imx recursive threshold l).1.length ≤ eventBound l
  | _, [] => by simp [process_entries, eventBound]
  | recursive, FsTree.file p :: rest => by
      have ih := process_entries_events_le imx threshold recursive rest
      have hpf := process_file_events_le imx p threshold
      unfold process_entries eventBound
      rcases hr : (process_file imx p threshold).2 with e | u
      · simp [andThen, hr]
        omega
      · rcases hrest : process_entries imx recursive threshold rest with ⟨ev2, r2⟩
        simp [andThen, hr, hrest]
        rw [hrest] at ih
        simp at ih
        omega
  | recursive, FsTree.dir p es :: rest => by
      cases recursive
      · have ihr := process_entries_events_le imx threshold false rest
        simp [process_entries, eventBound]
        omega
      · have ihe := process_entries_events_le imx threshold true es
        have ihr := process_entries_events_le imx threshold true rest
        unfold process_entries eventBound
        simp
        rcases hs : (process_entries imx true threshold es).2 with e | u
        · simp [andThen, hs]
          omega
        · rcases hrest : process_entries imx true threshold rest with ⟨ev2, r2⟩
          simp [andThen, hs, hrest]
          rw [hrest] at ihr
          simp at ihr
          omega

/-- C9: every directory run over a finite file-system tree completes with a
finite trace: the number of emitted events is bounded by a bound computed
from the tree, so the recursive descent cannot run forever. -/
theorem c9_traversal_finite (imx : Imx) (recursive : Bool) (threshold : Nat)
    (dir : String) (entries : List FsTree) :
    (process_directory imx recursive threshold dir entries).1.length
      ≤ 1 + eventBound entries := by
  have h := process_entries_events_le imx threshold recursive entries
  simp [process_directory]
  omega

end RemoveLetterbox
namespace RemoveLetterbox

theorem process_file_threshold (imx : Imx) (p : String) (threshold : Nat) :
    ∀ ev ∈ (process_file imx p threshold).1,
      ∀ t, eventThreshold ev = some t → t = threshold := by
  unfold process_file
  split
  · intro ev hev t ht
    simp at hev
    rcases hev with h | h <;> subst h <;> simp [eventThreshold] at ht
  · split
    · intro ev hev t ht
      simp at hev
      subst hev
      simp [eventThreshold] at ht
    · intro ev hev t ht
      simp at hev
      rcases hev with h | h <;> subst h <;> simp [eventThreshold] at ht
      omega

theorem process_entries_threshold (imx : Imx) (threshold : Nat) :
    (recursive : Bool) → (l : List FsTree) →
      ∀ ev ∈ (process_entries imx recursive threshold l).1,
        ∀ t, eventThreshold ev = some t → t = threshold
  | _, [] => by simp [process_entries]
  | recursive, FsTree.file p :: rest => by
      have ih := process_entries_threshold imx threshold recursive rest
      have hpf := process_file_threshold imx p threshold
      intro ev hev t ht
      unfold process_entries at hev
      rcases hr : (process_file imx p threshold).2 with e | u
      · rw [hr] at hev
        simp [andThen] at hev
        rcases hev with h | h
        · subst h
          simp [eventThreshold] at ht
          omega
        · exact hpf ev h t ht
      · rcases hrest : process_entries imx recursive threshold rest with ⟨ev2, r2⟩
        rw [hr, hrest] at hev
        simp [andThen] at hev
        rcases hev with h | h | h
        · subst h
          simp [eventThreshold] at ht
          omega
        · exact hpf ev h t ht
        · have := ih ev (by rw [hrest]; exact h) t ht
          exact this
  | recursive, FsTree.dir p es :: rest => by
      cases recursive
      · have ihr := process_entries_threshold imx threshold false rest
        intro ev hev t ht
        unfold process_entries at hev
        simp at hev
        exact ihr ev hev t ht
      · have ihe := process_entries_threshold imx threshold true es
        have ihr := process_entries_threshold imx threshold true rest
        intro ev hev t ht
        unfold process_entries at hev
        simp at hev
        rcases hs : (process_entries imx true threshold es).2 with e | u
        · rw [hs] at hev
          simp [andThen] at hev
          rcases hev with h | h
          · subst h
            simp [eventThreshold] at ht
          · exact ihe ev h t ht
        · rcases hrest : process_entries imx true threshold rest with ⟨ev2, r2⟩
          rw [hs, hrest] at hev
          simp [andThen] at hev
          rcases hev with h | h | h
          · subst h
            simp [eventThreshold] at ht
          · exact ihe ev h t ht
          · exact ihr ev (by rw [hrest]; exact h) t ht

/-- C7: the processing configuration is never mutated or overridden during a
run: every event of a directory run that records a threshold — a file
dispatch or a direct removal call, at any depth — records exactly the
threshold the run started with. -/
theorem c7_config_constant (imx : Imx) (recursive : Bool) (threshold : Nat)
    (dir : String) (entries : List FsTree) :
    ∀ ev ∈ (process_directory imx recursive threshold dir entries).1,
      ∀ t, eventThreshold ev = some t → t = threshold := by
  intro ev hev t ht
  simp [process_directory] at hev
  rcases hev with h | h
  · subst h
    simp [eventThreshold] at ht
  · exact process_entries_threshold imx threshold recursive entries ev h t ht

/-- C7 witness: in a concrete run with threshold 10, the dispatch event for
the single file carries threshold 10. -/
theorem c7_config_constant_witness :
    Event.dispatch "x.png" 10
        ∈ (process_directory imxDemo false 10 "root" [FsTree.file "x.png"]).1
    ∧ (10 : Nat) = 10 := by
  have hm : Event.dispatch "x.png" 10
      ∈ (process_directory imxDemo false 10 "root" [FsTree.file "x.png"]).1 := by
    simp [process_directory, process_entries, process_file, imxDemo, andThen,
      withPathContext]
  exact ⟨hm, c7_config_constant imxDemo false 10 "root" [FsTree.file "x.png"]
    (Event.dispatch "x.png" 10) hm 10 rfl⟩

end RemoveLetterbox
namespace RemoveLetterbox

theorem dispatchedPaths_nil : dispatchedPaths [] = [] := rfl

theorem dispatchedPaths_cons_dispatch (p : String) (t : Nat) (tr : List Event) :
    dispatchedPaths (Event.dispatch p t :: tr) = p :: dispatchedPaths tr := rfl

theorem dispatchedPaths_cons_enterDir (p : String) (tr : List Event) :
    dispatchedPaths (Event.enterDir p :: tr) = dispatchedPaths tr := rfl

theorem dispatchedPaths_append (a b : List Event) :
    dispatchedPaths (a ++ b) = dispatchedPaths a ++ dispatchedPaths b := by
  simp [dispatchedPaths]

theorem dispatchedPaths_process_file (imx : Imx) (p : String) (threshold : Nat) :
    dispatchedPaths (process_file imx p threshold).1 = [] := by
  unfold process_file
  split
  · rfl
  · split <;> rfl

theorem expectedDispatch_eq_self (imx : Imx) (threshold : Nat) (a : List String)
    (h : ∀ x ∈ a, fileFails imx threshold x = false) :
    expectedDispatch imx threshold a = a := by
  induction a with
  | nil => rfl
  | cons p ps ih =>
      have hp := h p (List.mem_cons_self p ps)
      simp [expectedDispatch, hp]
      exact ih fun x hx => h x (List.mem_cons_of_mem p hx)

theorem expectedDispatch_append_of_all_ok (imx : Imx) (threshold : Nat)
    (a b : List String) (h : ∀ x ∈ a, fileFails imx threshold x = false) :
    expectedDispatch imx threshold (a ++ b) = a ++ expectedDispatch imx threshold b := by
  induction a with
  | nil => rfl
  | cons p ps ih =>
      have hp := h p (List.mem_cons_self p ps)
      simp [expectedDispatch, hp]
      exact ih fun x hx => h x (List.mem_cons_of_mem p hx)

theorem expectedDispatch_append_of_fail (imx : Imx) (threshold : Nat)
    (a b : List String) (h : ∃ x ∈ a, fileFails imx threshold x = true) :
    expectedDispatch imx threshold (a ++ b) = expectedDispatch imx threshold a := by
  induction a with
  | nil => simp at h
  | cons p ps ih =>
      by_cases hp : fileFails imx threshold p = true
      · simp [expectedDispatch, hp]
      · rcases h with ⟨x, hx, hfx⟩
        rcases List.mem_cons.mp hx with hx1 | hx1
        · subst hx1
          exact absurd hfx hp
        · have h2 := ih ⟨x, hx1, hfx⟩
          simp [expectedDispatch, hp, List.append_eq, h2]

theorem process_entries_char (imx : Imx) (threshold : Nat) :
    (recursive : Bool) → (l : List FsTree) →
      dispatchedPaths (process_entries imx recursive threshold l).1
          = expectedDispatch imx threshold (allFiles recursive l)
      ∧ ((process_entries imx recursive threshold l).2 = Except.ok ()
          ↔ ∀ x ∈ allFiles recursive l, fileFails imx threshold x = false)
  | _, [] => by
      simp [process_entries, allFiles, expectedDispatch, dispatchedPaths_nil]
  | recursive, FsTree.file p :: rest => by
      have ih := process_entries_char imx threshold recursive rest
      have hdp := dispatchedPaths_process_file imx p threshold
      unfold process_entries allFiles
      rcases hr : (process_file imx p threshold).2 with e | u
      · have hff : fileFails imx threshold p = true := by
          simp [fileFails, hr, isOkB]
        constructor
        · simp [andThen, dispatchedPaths_cons_dispatch, hdp, expectedDispatch, hff]
        · simp [andThen, hff]
      · have hff : fileFails imx threshold p = false := by
          simp [fileFails, hr, isOkB]
        rcases hrest : process_entries imx recursive threshold rest with ⟨ev2, r2⟩
        rw [hrest] at ih
        constructor
        · simp [andThen, dispatchedPaths_cons_dispatch, dispatchedPaths_append, hdp,
            expectedDispatch, hff]
          exact ih.1
        · simp [andThen, hff]
          exact ih.2
  | recursive, FsTree.dir p es :: rest => by
      cases recursive
      · have ihr := process_entries_char imx threshold false rest
        simpa [process_entries, allFiles] using ihr
      · have ihe := process_entries_char imx threshold true es
        have ihr := process_entries_char imx threshold true rest
        unfold process_entries allFiles
        rcases hs : (process_entries imx true threshold es).2 with e | u
        · have hex : ∃ x ∈ allFiles true es, fileFails imx threshold x = true := by
            rcases ihe with ⟨_, hiff⟩
            by_contra hno
            push_neg at hno
            have hall : ∀ x ∈ allFiles true es, fileFails imx threshold x = false := by
              intro x hx
              simpa using hno x hx
            have h2 := hiff.mpr hall
            rw [hs] at h2
            simp at h2
          constructor
          · simp [andThen, dispatchedPaths_cons_enterDir,
              expectedDispatch_append_of_fail imx threshold _ _ hex, ihe.1]
          · rcases hex with ⟨x, hx, hfx⟩
            simp [andThen]
            exact ⟨x, Or.inl hx, hfx⟩
        · cases u
          have hall : ∀ x ∈ allFiles true es, fileFails imx threshold x = false :=
            ihe.2.mp hs
          rcases hrest : process_entries imx true threshold rest with ⟨ev2, r2⟩
          rw [hrest] at ihr
          obtain ⟨ihr1, ihr2⟩ := ihr
          dsimp only at ihr1 ihr2
          constructor
          · simp [andThen, dispatchedPaths_cons_enterDir, dispatchedPaths_append,
              expectedDispatch_append_of_all_ok imx threshold _ _ hall]
            rw [ihe.1, expectedDispatch_eq_self imx threshold _ hall, ihr1]
          · simp [andThen]
            rw [ihr2]
            constructor
            · intro h x hx
              rcases hx with hx1 | hx1
              · exact hall x hx1
              · exact h x hx1
            · intro h x hx
              exact h x (Or.inr hx)

end RemoveLetterbox
namespace RemoveLetterbox

theorem expectedDispatch_take (imx : Imx) (threshold : Nat) :
    (l : List String) → (k : Nat) → (pk : String) →
      l.get? k = some pk →
      fileFails imx threshold pk = true →
      (∀ j pj, j < k → l.get? j = some pj → fileFails imx threshold pj = false) →
      expectedDispatch imx threshold l = l.take (k + 1)
  | [], k, pk => fun hget _ _ => by simp at hget
  | p :: ps, 0, pk => fun hget hfail hfirst => by
      simp at hget
      subst hget
      simp [expectedDispatch, hfail]
  | p :: ps, k + 1, pk => fun hget hfail hfirst => by
      have hp : fileFails imx threshold p = false :=
        hfirst 0 p (Nat.succ_pos k) rfl
      have ih := expectedDispatch_take imx threshold ps k pk (by simpa using hget) hfail
        (fun j pj hj hg => hfirst (j + 1) pj (Nat.succ_lt_succ hj) (by simpa using hg))
      simp [expectedDispatch, hp, ih]

/-- C1: the driver is fail-fast: in any directory run in which the file at
position k of the traversal order is the first whose dispatch fails, the
sequence of dispatched files is exactly the first k+1 files of the traversal
order — no file after the k-th is dispatched (later siblings and unvisited
subdirectories are left unprocessed) — and the run as a whole returns the
failure. -/
theorem c1_fail_fast (imx : Imx) (recursive : Bool) (threshold : Nat)
    (dir : String) (entries : List FsTree) (k : Nat) (pk : String)
    (hk : (allFiles recursive entries).get? k = some pk)
    (hfail : fileFails imx threshold pk = true)
    (hfirst : ∀ j pj, j < k → (allFiles recursive entries).get? j = some pj →
      fileFails imx threshold pj = false) :
    dispatchedPaths (process_directory imx recursive threshold dir entries).1
        = (allFiles recursive entries).take (k + 1)
    ∧ (process_directory imx recursive threshold dir entries).2 ≠ Except.ok () := by
  have hchar := process_entries_char imx threshold recursive entries
  constructor
  · have hdir : dispatchedPaths (process_directory imx recursive threshold dir entries).1
        = dispatchedPaths (process_entries imx recursive threshold entries).1 := by
      simp [process_directory, dispatchedPaths_cons_enterDir]
    rw [hdir, hchar.1, expectedDispatch_take imx threshold _ k pk hk hfail hfirst]
  · intro hok
    have hok2 : (process_entries imx recursive threshold entries).2 = Except.ok () := by
      simpa [process_directory] using hok
    have hall := hchar.2.mp hok2
    have hmem : pk ∈ allFiles recursive entries := List.get?_mem hk
    have hpk := hall pk hmem
    rw [hpk] at hfail
    simp at hfail

/-- C1 witness: in a three-file directory where the second file is the first
to fail, exactly the first two files are dispatched and the run fails. -/
theorem c1_fail_fast_witness :
    dispatchedPaths (process_directory imxDemo false 10 "root"
        [FsTree.file "x.png", FsTree.file "bad.png", FsTree.file "c.png"]).1
      = (allFiles false
          [FsTree.file "x.png", FsTree.file "bad.png", FsTree.file "c.png"]).take 2
    ∧ (process_directory imxDemo false 10 "root"
        [FsTree.file "x.png", FsTree.file "bad.png", FsTree.file "c.png"]).2
      ≠ Except.ok () :=
  c1_fail_fast imxDemo false 10 "root"
    [FsTree.file "x.png", FsTree.file "bad.png", FsTree.file "c.png"] 1 "bad.png"
    (by simp [allFiles])
    (by simp [fileFails, process_file, imxDemo, isOkB, withPathContext])
    (by
      intro j pj hj hget
      have hj0 : j = 0 := by omega
      subst hj0
      simp [allFiles] at hget
      subst hget
      simp [fileFails, process_file, imxDemo, isOkB, withPathContext])

end RemoveLetterbox
